import Mathlib

/-!
Verification of the node-metrics parser of the slurm exporter
(src/node.go). Go strings are embedded as lists of characters, Go's
uint64 as Nat (with the clamping strconv performs on overflow), Go's
int as Int, and every operation that can panic with an
index-out-of-range error is Option-valued, none modelling the panic.
-/

/-- Characters of a Go string. The inputs here are ASCII, where Go's
byte-wise view and this character-wise view coincide, including for
lexicographic ordering. -/
abbrev GoStr := List Char

/-- Character list of a Lean string literal. -/
def gs (s : String) : GoStr := s.toList

/-- Go strings.Split with a one-character separator: split around every
occurrence of the separator, keeping empty pieces; the result is never
the empty list. Every separator used by node.go is a single character. -/
def goSplit (p : Char → Bool) : GoStr → List GoStr
  | [] => [[]]
  | c :: rest =>
    match goSplit p rest with
    | [] => [[]]
    | r :: rs => if p c then [] :: r :: rs else (c :: r) :: rs

/-- Go unicode.IsSpace restricted to the ASCII whitespace characters
(the scheduler output is ASCII). -/
def goIsSpace (c : Char) : Bool :=
  c = ' ' || c = '\t' || c = '\n' || c = '\x0b' || c = '\x0c' || c = '\r'

/-- Go strings.Fields: the maximal whitespace-free runs of the string,
in order; splitting at every whitespace character and dropping the
empty pieces produces exactly those runs. -/
def goFields (s : GoStr) : List GoStr :=
  (goSplit goIsSpace s).filter (fun w => !w.isEmpty)

/-- Numeric value of a digit string, most significant digit first. -/
def digitsToNat (s : GoStr) : Nat :=
  s.foldl (fun n c => n * 10 + (c.toNat - 48)) 0

/-- Whether a Go string is a nonempty run of ASCII digits: exactly the
strings strconv.ParseUint accepts in base 10. -/
def isDigits (s : GoStr) : Bool := !s.isEmpty && s.all Char.isDigit

/-- Value Go strconv.ParseUint(s, 10, 64) returns when the caller
discards the error: 0 on a syntax error, the maximum 2^64-1 on
overflow (strconv clamps, it does not wrap), the value otherwise. -/
def parseUintGo (s : GoStr) : Nat :=
  if isDigits s then min (digitsToNat s) (2 ^ 64 - 1) else 0

/-- Clamp into the int64 range: on range errors Go strconv returns the
extreme value of the appropriate sign. -/
def intClamp (x : Int) : Int := max (-(2 ^ 63)) (min x (2 ^ 63 - 1))

/-- Value Go strconv.Atoi returns when the caller discards the error:
an optional sign followed by digits, 0 on a syntax error, clamped on
overflow. -/
def atoiGo (s : GoStr) : Int :=
  if s.head? = some '+' then
    (if isDigits s.tail then intClamp (digitsToNat s.tail) else 0)
  else if s.head? = some '-' then
    (if isDigits s.tail then intClamp (-(digitsToNat s.tail : Int)) else 0)
  else if isDigits s then intClamp (digitsToNat s) else 0

/-- Go strings.TrimSuffix for a one-character suffix: drop one trailing
occurrence if present (node.go only trims a closing parenthesis). -/
def trimSuffixChar (c : Char) (s : GoStr) : GoStr :=
  if s.getLast? = some c then s.dropLast else s

/-- The total-GRES sentinel of a node without GPUs. -/
def nullStr : GoStr := gs (r"(null)")

/-- The index-spec sentinel for no allocated indices. -/
def naStr : GoStr := gs (r"N/A")

/-- One node's record, mirroring struct NodeMetrics of node.go. The
uint64 fields become Nat (parseUintGo already clamps below 2^64); the
allocation bitmap of Go type list-of-int only ever holds the written
values 0 and 1 and is a list of Nat. -/
structure NodeMetrics where
  cpuAlloc : Nat
  cpuIdle : Nat
  cpuOther : Nat
  cpuTotal : Nat
  memAlloc : Nat
  memTotal : Nat
  gpuAlloc : Nat
  hasGPU : Bool
  gpuType : GoStr
  gpuIndex : List Nat
  nodeStatus : GoStr
  deriving DecidableEq

/-- Write 1 at a Go int index of the bitmap; none models the
index-out-of-range panic on a negative or too-large index. -/
def setIdx (l : List Nat) (i : Int) : Option (List Nat) :=
  if 0 ≤ i ∧ i.toNat < l.length then some (l.set i.toNat 1) else none

/-- Write 1 at k consecutive indices starting at s. -/
def setRangeAux (l : List Nat) (s : Int) : Nat → Option (List Nat)
  | 0 => some l
  | k + 1 => (setIdx l s).bind (fun l2 => setRangeAux l2 (s + 1) k)

/-- The loop for i := start; i <= end; i++ of node.go lines 125-127:
(e - s + 1).toNat iterations, none at the first out-of-range write. -/
def setRange (l : List Nat) (s e : Int) : Option (List Nat) :=
  setRangeAux l s (e - s + 1).toNat

/-- Process one comma-separated token of the index-spec (node.go lines
120-132): a token containing a dash is an inclusive range whose bounds
are Atoi of the pieces around the first dash (the getD defaults are
never used: a string containing a dash splits into at least two
pieces, matching Go indexing bounds[0] and bounds[1] never panicking
there); any other token is a single Atoi index. -/
def applyToken (bm : List Nat) (t : GoStr) : Option (List Nat) :=
  if t.contains '-' then
    setRange bm
      (atoiGo ((goSplit (fun c => c = '-') t).getD 0 []))
      (atoiGo ((goSplit (fun c => c = '-') t).getD 1 []))
  else setIdx bm (atoiGo t)

/-- Bitmap construction of node.go lines 117-134: a zero bitmap of the
total GPU count, left untouched for the N/A sentinel, otherwise
written through every comma-separated token in order. -/
def buildBitmap (numGpus : Nat) (indexList : GoStr) : Option (List Nat) :=
  if indexList = naStr then some (List.replicate numGpus 0)
  else List.foldlM applyToken (List.replicate numGpus 0)
    (goSplit (fun c => c = ',') indexList)

/-- GPU decoding of node.go lines 100-135 for a line whose total-GRES
field is not the null sentinel; returns the type label, the allocated
count and the bitmap, none modelling a panic. -/
def decodeGPU (gpuTotalStr gpuAllocStr : GoStr) : Option (GoStr × Nat × List Nat) := do
  let gpuStr := goSplit (fun c => c = '(') gpuAllocStr
  let g0 ← gpuStr[0]?
  let usedGPUs := goSplit (fun c => c = ':') g0
  let ty ← usedGPUs[1]?
  let allocStr ← usedGPUs[2]?
  let totCnt ← (goSplit (fun c => c = ':') gpuTotalStr)[2]?
  let g1 ← gpuStr[1]?
  let indexList ← (goSplit (fun c => c = ':') (trimSuffixChar ')' g1))[1]?
  let bm ← buildBitmap (parseUintGo totCnt) indexList
  pure (ty, parseUintGo allocStr, bm)

/-- The record a line without GPUs decodes to: GPU fields keep the
zero defaults of node.go line 64, everything else is copied from the
line's fields. -/
def recOfNoGPU (memAllocStr memTotalStr status c0 c1 c2 c3 : GoStr) : NodeMetrics :=
  { cpuAlloc := parseUintGo c0, cpuIdle := parseUintGo c1,
    cpuOther := parseUintGo c2, cpuTotal := parseUintGo c3,
    memAlloc := parseUintGo memAllocStr, memTotal := parseUintGo memTotalStr,
    gpuAlloc := 0, hasGPU := false, gpuType := [], gpuIndex := [],
    nodeStatus := status }

/-- The record a GPU-bearing line decodes to. -/
def recOfGPU (memAllocStr memTotalStr status c0 c1 c2 c3 ty : GoStr)
    (ga : Nat) (bm : List Nat) : NodeMetrics :=
  { cpuAlloc := parseUintGo c0, cpuIdle := parseUintGo c1,
    cpuOther := parseUintGo c2, cpuTotal := parseUintGo c3,
    memAlloc := parseUintGo memAllocStr, memTotal := parseUintGo memTotalStr,
    gpuAlloc := ga, hasGPU := true, gpuType := ty, gpuIndex := bm,
    nodeStatus := status }

/-- Decode one already-field-split line (node.go lines 62-135): the
node name is field 0 and the record collects the status, memory, CPU
and GPU fields; none models the index-out-of-range panic of any field
or sub-field access. -/
def decodeFields (node : List GoStr) : Option (GoStr × NodeMetrics) := do
  let nodeName ← node[0]?
  let status ← node[4]?
  let memAllocStr ← node[1]?
  let memTotalStr ← node[2]?
  let cpuField ← node[3]?
  let cpuInfo := goSplit (fun c => c = '/') cpuField
  let c0 ← cpuInfo[0]?
  let c1 ← cpuInfo[1]?
  let c2 ← cpuInfo[2]?
  let c3 ← cpuInfo[3]?
  let gpuTotalStr ← node[5]?
  let gpuAllocStr ← node[6]?
  if gpuTotalStr = nullStr then
    pure (nodeName, recOfNoGPU memAllocStr memTotalStr status c0 c1 c2 c3)
  else do
    let gpu ← decodeGPU gpuTotalStr gpuAllocStr
    pure (nodeName,
      recOfGPU memAllocStr memTotalStr status c0 c1 c2 c3 gpu.1 gpu.2.1 gpu.2.2)

/-- Decode one raw line: field-split it, then decode the fields. -/
def decodeLine (line : GoStr) : Option (GoStr × NodeMetrics) :=
  decodeFields (goFields line)

/-- Modelled from the spec: the function RemoveDuplicates called at
node.go line 59 is not part of this source tree. Section 4.2 step 2 of
the specification describes the deduplication as lexicographic sort
followed by adjacent-duplicate removal; the sort itself is visible in
the source, so the missing function is the adjacent-duplicate removal. -/
def removeDuplicates : List GoStr → List GoStr
  | [] => []
  | [a] => [a]
  | a :: b :: rest =>
    if a = b then removeDuplicates (b :: rest)
    else a :: removeDuplicates (b :: rest)

/-- The Go map from node name to record, as an association list with
unique keys. -/
abbrev NodeMap := List (GoStr × NodeMetrics)

/-- Go map assignment nodes[name] = record: overwrite the binding of
an existing key, otherwise add one. -/
def insertNode (m : NodeMap) (k : GoStr) (v : NodeMetrics) : NodeMap :=
  if ∃ p ∈ m, p.1 = k then
    m.map (fun p => if p.1 = k then (k, v) else p)
  else m ++ [(k, v)]

/-- Go sort.Strings: lexicographic sort of the lines. Any correct sort
of strings under their (antisymmetric, total) lexicographic order
produces the same list, so a concrete insertion sort stands in for the
library sort. -/
def sortLines (ls : List GoStr) : List GoStr :=
  List.insertionSort (fun a b => a ≤ b) ls

/-- One iteration of the per-line loop: decode the line and assign the
record into the map, propagating a panic. -/
def parseStep (m : NodeMap) (line : GoStr) : Option NodeMap :=
  (decodeLine line).map (fun p => insertNode m p.1 p.2)

/-- Per-line loop of ParseNodeMetrics (node.go lines 57-136) on an
already-split list of lines: sort lexicographically, deduplicate, then
decode each surviving line into the map; none models a panic on any
line. -/
def parseLines (ls : List GoStr) : Option NodeMap :=
  List.foldlM parseStep [] (removeDuplicates (sortLines ls))

/-- ParseNodeMetrics of node.go line 53: split the raw input on
newline characters (strings.Split keeps a trailing empty piece when
the input ends in a newline) and run the per-line loop. -/
def ParseNodeMetrics (input : GoStr) : Option NodeMap :=
  parseLines (goSplit (fun c => c = '\n') input)

/-- One emitted slurm_node_gpu_alloc observation of
NodeCollector.Collect: node label, type label, index label, value. -/
structure GPUObs where
  node : GoStr
  gpuTypeLabel : GoStr
  index : Nat
  value : Nat
  deriving DecidableEq

/-- GPU observations Collect emits for one node (node.go lines
207-211): one gauge per bitmap position when hasGPU holds, none
otherwise. -/
def nodeGPUObs (name : GoStr) (rec : NodeMetrics) : List GPUObs :=
  if rec.hasGPU then
    (List.range rec.gpuIndex.length).map
      (fun i => { node := name, gpuTypeLabel := rec.gpuType, index := i,
                  value := rec.gpuIndex.getD i 0 })
  else []

/-- All GPU observations of one Collect pass over the node map. -/
def collectGPUObs (m : NodeMap) : List GPUObs :=
  m.foldr (fun p acc => nodeGPUObs p.1 p.2 ++ acc) []

/-- The piece of a range token before the first dash. -/
def rb0 (t : GoStr) : GoStr := (goSplit (fun c => c = '-') t).getD 0 []

/-- The piece of a range token after the first dash. -/
def rb1 (t : GoStr) : GoStr := (goSplit (fun c => c = '-') t).getD 1 []

/-- A well-formed index-spec token whose named indices all lie below
n: either a plain digit string naming a single index, or
digits-dash-digits with start at most end; the values stay below n and
inside int64, so Go Atoi returns them exactly. -/
def WFToken (n : Nat) (t : GoStr) : Prop :=
  if t.contains '-' then
    (goSplit (fun c => c = '-') t).length = 2 ∧
      isDigits (rb0 t) = true ∧ isDigits (rb1 t) = true ∧
      digitsToNat (rb0 t) ≤ digitsToNat (rb1 t) ∧
      digitsToNat (rb1 t) < n ∧ digitsToNat (rb1 t) < 2 ^ 63
  else isDigits t = true ∧ digitsToNat t < n ∧ digitsToNat t < 2 ^ 63

/-- The indices a token names: the inclusive dash range, or the single
value. -/
def NamedIdx (t : GoStr) (i : Nat) : Prop :=
  if t.contains '-' then
    digitsToNat (rb0 t) ≤ i ∧ i ≤ digitsToNat (rb1 t)
  else i = digitsToNat t

instance (n : Nat) (t : GoStr) : Decidable (WFToken n t) := by
  unfold WFToken
  infer_instance

instance (t : GoStr) (i : Nat) : Decidable (NamedIdx t i) := by
  unfold NamedIdx
  infer_instance

lemma removeDuplicates_cons_cons (x y : GoStr) (rest : List GoStr) :
    removeDuplicates (x :: y :: rest) =
      if x = y then removeDuplicates (y :: rest)
      else x :: removeDuplicates (y :: rest) := rfl

lemma mem_removeDuplicates : ∀ (l : List GoStr) (a : GoStr), a ∈ removeDuplicates l ↔ a ∈ l
  | [], _ => Iff.rfl
  | [_], _ => Iff.rfl
  | x :: y :: rest, a => by
    rw [removeDuplicates_cons_cons]
    by_cases h : x = y
    · rw [if_pos h, mem_removeDuplicates (y :: rest) a]
      subst h
      simp [List.mem_cons]
    · rw [if_neg h]
      simp [List.mem_cons, mem_removeDuplicates (y :: rest) a]

lemma sorted_lt_removeDuplicates : ∀ {l : List GoStr},
    l.Sorted (fun a b => a ≤ b) → (removeDuplicates l).Sorted (fun a b => a < b)
  | [], _ => by simp [removeDuplicates]
  | [x], _ => by simp [removeDuplicates]
  | x :: y :: rest, h => by
    rw [removeDuplicates_cons_cons]
    have h1 : (y :: rest).Sorted (fun a b => a ≤ b) := (List.sorted_cons.mp h).2
    have hx : ∀ b ∈ y :: rest, x ≤ b := (List.sorted_cons.mp h).1
    by_cases hxy : x = y
    · rw [if_pos hxy]
      exact sorted_lt_removeDuplicates h1
    · rw [if_neg hxy]
      refine List.sorted_cons.mpr ⟨?_, sorted_lt_removeDuplicates h1⟩
      intro b hb
      have hb2 : b ∈ y :: rest := (mem_removeDuplicates _ _).mp hb
      rcases List.mem_cons.mp hb2 with rfl | hbr
      · exact lt_of_le_of_ne (hx b hb2) hxy
      · exact lt_of_lt_of_le (lt_of_le_of_ne (hx y (List.mem_cons_self y rest)) hxy)
          ((List.sorted_cons.mp h1).1 b hbr)

lemma nodup_removeDuplicates {l : List GoStr} (h : l.Sorted (fun a b => a ≤ b)) :
    (removeDuplicates l).Nodup :=
  (sorted_lt_removeDuplicates h).nodup

lemma removeDuplicates_sortLines_eq {l₁ l₂ : List GoStr}
    (h : ∀ a, a ∈ l₁ ↔ a ∈ l₂) :
    removeDuplicates (sortLines l₁) = removeDuplicates (sortLines l₂) := by
  have hs₁ : (sortLines l₁).Sorted (fun a b => a ≤ b) := List.sorted_insertionSort _ _
  have hs₂ : (sortLines l₂).Sorted (fun a b => a ≤ b) := List.sorted_insertionSort _ _
  have hmem : ∀ a, a ∈ removeDuplicates (sortLines l₁) ↔ a ∈ removeDuplicates (sortLines l₂) := by
    intro a
    rw [mem_removeDuplicates, mem_removeDuplicates]
    unfold sortLines
    rw [(List.perm_insertionSort _ l₁).mem_iff, (List.perm_insertionSort _ l₂).mem_iff]
    exact h a
  have hperm : (removeDuplicates (sortLines l₁)).Perm (removeDuplicates (sortLines l₂)) :=
    (List.perm_ext_iff_of_nodup (nodup_removeDuplicates hs₁) (nodup_removeDuplicates hs₂)).mpr hmem
  haveI : IsAntisymm (List Char) (fun a b => a < b) :=
    ⟨fun _ _ hab hba => absurd hba (lt_asymm hab)⟩
  exact List.eq_of_perm_of_sorted hperm
    (sorted_lt_removeDuplicates hs₁) (sorted_lt_removeDuplicates hs₂)

lemma sortLines_perm_eq {l₁ l₂ : List GoStr} (h : l₁.Perm l₂) :
    sortLines l₁ = sortLines l₂ := by
  unfold sortLines
  exact List.eq_of_perm_of_sorted
    (((List.perm_insertionSort _ l₁).trans h).trans (List.perm_insertionSort _ l₂).symm)
    (List.sorted_insertionSort _ _) (List.sorted_insertionSort _ _)

lemma insertNode_keys_map {m : NodeMap} {k : GoStr} {v : NodeMetrics} :
    (insertNode m k v).map Prod.fst =
      if ∃ p ∈ m, p.1 = k then m.map Prod.fst else m.map Prod.fst ++ [k] := by
  unfold insertNode
  by_cases h : ∃ p ∈ m, p.1 = k
  · rw [if_pos h, if_pos h, List.map_map]
    refine List.map_congr_left ?_
    intro p _
    by_cases hp : p.1 = k
    · simp [hp]
    · simp [hp]
  · rw [if_neg h, if_neg h, List.map_append]
    rfl

lemma insertNode_keys_nodup {m : NodeMap} {k : GoStr} {v : NodeMetrics}
    (h : (m.map Prod.fst).Nodup) : ((insertNode m k v).map Prod.fst).Nodup := by
  rw [insertNode_keys_map]
  by_cases hc : ∃ p ∈ m, p.1 = k
  · rw [if_pos hc]
    exact h
  · rw [if_neg hc, List.nodup_append]
    refine ⟨h, List.nodup_singleton k, ?_⟩
    intro a ha hak
    rw [List.mem_singleton] at hak
    subst hak
    obtain ⟨p, hp, hpa⟩ := List.mem_map.mp ha
    exact hc ⟨p, hp, hpa⟩

lemma mem_insertNode {m : NodeMap} {k : GoStr} {v : NodeMetrics}
    {q : GoStr × NodeMetrics} (h : q ∈ insertNode m k v) : q = (k, v) ∨ q ∈ m := by
  unfold insertNode at h
  by_cases hc : ∃ p ∈ m, p.1 = k
  · rw [if_pos hc] at h
    obtain ⟨p, hp, hq⟩ := List.mem_map.mp h
    by_cases hpk : p.1 = k
    · left
      rw [← hq, if_pos hpk]
    · right
      rw [← hq, if_neg hpk]
      exact hp
  · rw [if_neg hc] at h
    rcases List.mem_append.mp h with h1 | h2
    · right
      exact h1
    · left
      exact List.mem_singleton.mp h2

lemma foldlM_parseStep_inv : ∀ (lines : List GoStr) (acc m : NodeMap),
    List.foldlM parseStep acc lines = some m →
    ((acc.map Prod.fst).Nodup → (m.map Prod.fst).Nodup) ∧
      (∀ q ∈ m, q ∈ acc ∨ ∃ line ∈ lines, decodeLine line = some q)
  | [], acc, m, h => by
    simp only [List.foldlM_nil] at h
    cases h
    exact ⟨id, fun q hq => Or.inl hq⟩
  | line :: rest, acc, m, h => by
    rw [List.foldlM_cons] at h
    obtain ⟨acc2, hstep, hrest⟩ := Option.bind_eq_some.mp h
    obtain ⟨p, hdec, hins⟩ := Option.map_eq_some'.mp hstep
    obtain ⟨ihnd, ihsrc⟩ := foldlM_parseStep_inv rest acc2 m hrest
    constructor
    · intro hnd
      exact ihnd (hins ▸ insertNode_keys_nodup hnd)
    · intro q hq
      rcases ihsrc q hq with hacc2 | ⟨l2, hl2, hd2⟩
      · rw [← hins] at hacc2
        rcases mem_insertNode hacc2 with rfl | hacc
        · exact Or.inr ⟨line, List.mem_cons_self line rest, by rw [hdec]⟩
        · exact Or.inl hacc
      · exact Or.inr ⟨l2, List.mem_cons_of_mem line hl2, hd2⟩

lemma mem_of_mem_dedup_sort {ls : List GoStr} {line : GoStr}
    (h : line ∈ removeDuplicates (sortLines ls)) : line ∈ ls := by
  have h2 := (mem_removeDuplicates _ _).mp h
  unfold sortLines at h2
  exact (List.perm_insertionSort _ ls).mem_iff.mp h2

lemma mem_dedup_sort_of_mem {ls : List GoStr} {line : GoStr}
    (h : line ∈ ls) : line ∈ removeDuplicates (sortLines ls) := by
  refine (mem_removeDuplicates _ _).mpr ?_
  unfold sortLines
  exact (List.perm_insertionSort _ ls).mem_iff.mpr h

lemma parseLines_some_inv {ls : List GoStr} {m : NodeMap} (h : parseLines ls = some m) :
    (m.map Prod.fst).Nodup ∧ ∀ q ∈ m, ∃ line ∈ ls, decodeLine line = some q := by
  unfold parseLines at h
  obtain ⟨hnd, hsrc⟩ := foldlM_parseStep_inv _ _ _ h
  refine ⟨hnd (by simp), fun q hq => ?_⟩
  rcases hsrc q hq with h1 | ⟨line, hl, hd⟩
  · simp at h1
  · exact ⟨line, mem_of_mem_dedup_sort hl, hd⟩

lemma foldlM_parseStep_none : ∀ (lines : List GoStr) (acc : NodeMap),
    (∃ line ∈ lines, decodeLine line = none) →
    List.foldlM parseStep acc lines = none
  | [], _, h => by simp at h
  | line :: rest, acc, h => by
    rw [List.foldlM_cons]
    rcases h with ⟨l2, hl2, hnone⟩
    rcases List.mem_cons.mp hl2 with rfl | hmem
    · show parseStep acc l2 >>= (fun b => List.foldlM parseStep b rest) = none
      unfold parseStep
      rw [hnone]
      rfl
    · cases hps : parseStep acc line with
      | none => rfl
      | some acc2 =>
        show List.foldlM parseStep acc2 rest = none
        exact foldlM_parseStep_none rest acc2 ⟨l2, hmem, hnone⟩

lemma parseLines_none {ls : List GoStr} {line : GoStr} (hmem : line ∈ ls)
    (hnone : decodeLine line = none) : parseLines ls = none := by
  unfold parseLines
  exact foldlM_parseStep_none _ _ ⟨line, mem_dedup_sort_of_mem hmem, hnone⟩

lemma parseLines_cons_mem {ls : List GoStr} {L : GoStr} (h : L ∈ ls) :
    parseLines (L :: ls) = parseLines ls := by
  unfold parseLines
  have hmem : ∀ a : GoStr, a ∈ L :: ls ↔ a ∈ ls := by
    intro a
    constructor
    · intro ha
      rcases List.mem_cons.mp ha with rfl | h2
      · exact h
      · exact h2
    · exact List.mem_cons_of_mem L
  rw [removeDuplicates_sortLines_eq hmem]

lemma decodeFields_inv {node : List GoStr} {nm : GoStr} {rec : NodeMetrics}
    (h : decodeFields node = some (nm, rec)) :
    ∃ f0 f1 f2 f3 f4 f5 f6 c0 c1 c2 c3 crest,
      node[0]? = some f0 ∧ node[1]? = some f1 ∧ node[2]? = some f2 ∧
      node[3]? = some f3 ∧ node[4]? = some f4 ∧ node[5]? = some f5 ∧
      node[6]? = some f6 ∧
      goSplit (fun c => c = '/') f3 = c0 :: c1 :: c2 :: c3 :: crest ∧
      nm = f0 ∧
      ((f5 = nullStr ∧ rec = recOfNoGPU f1 f2 f4 c0 c1 c2 c3) ∨
        (f5 ≠ nullStr ∧ ∃ ty ga bm, decodeGPU f5 f6 = some (ty, ga, bm) ∧
          rec = recOfGPU f1 f2 f4 c0 c1 c2 c3 ty ga bm)) := by
  unfold decodeFields at h
  obtain ⟨f0, h0, h⟩ := Option.bind_eq_some.mp h
  obtain ⟨f4, h4, h⟩ := Option.bind_eq_some.mp h
  obtain ⟨f1, h1, h⟩ := Option.bind_eq_some.mp h
  obtain ⟨f2, h2, h⟩ := Option.bind_eq_some.mp h
  obtain ⟨f3, h3, h⟩ := Option.bind_eq_some.mp h
  obtain ⟨c0, hc0, h⟩ := Option.bind_eq_some.mp h
  obtain ⟨c1, hc1, h⟩ := Option.bind_eq_some.mp h
  obtain ⟨c2, hc2, h⟩ := Option.bind_eq_some.mp h
  obtain ⟨c3, hc3, h⟩ := Option.bind_eq_some.mp h
  obtain ⟨f5, h5, h⟩ := Option.bind_eq_some.mp h
  obtain ⟨f6, h6, h⟩ := Option.bind_eq_some.mp h
  rcases hl : goSplit (fun c => c = '/') f3 with - | ⟨a0, - | ⟨a1, - | ⟨a2, - | ⟨a3, t⟩⟩⟩⟩ <;>
    rw [hl] at hc0 hc1 hc2 hc3 <;> simp only [List.getElem?_cons_zero,
      List.getElem?_cons_succ, List.getElem?_nil, Option.some.injEq,
      reduceCtorEq] at hc0 hc1 hc2 hc3
  subst hc0
  subst hc1
  subst hc2
  subst hc3
  refine ⟨f0, f1, f2, f3, f4, f5, f6, a0, a1, a2, a3, t,
    h0, h1, h2, h3, h4, h5, h6, hl, ?_, ?_⟩
  · by_cases hnull : f5 = nullStr
    · rw [if_pos hnull] at h
      have h2 : (f0, recOfNoGPU f1 f2 f4 a0 a1 a2 a3) = (nm, rec) :=
        Option.some.injEq _ _ ▸ h
      exact (congrArg Prod.fst h2).symm
    · rw [if_neg hnull] at h
      obtain ⟨gpu, hg, h⟩ := Option.bind_eq_some.mp h
      have h2 : (f0, recOfGPU f1 f2 f4 a0 a1 a2 a3 gpu.1 gpu.2.1 gpu.2.2) = (nm, rec) :=
        Option.some.injEq _ _ ▸ h
      exact (congrArg Prod.fst h2).symm
  · by_cases hnull : f5 = nullStr
    · rw [if_pos hnull] at h
      left
      refine ⟨hnull, ?_⟩
      have h2 : (f0, recOfNoGPU f1 f2 f4 a0 a1 a2 a3) = (nm, rec) :=
        Option.some.injEq _ _ ▸ h
      exact (congrArg Prod.snd h2).symm
    · rw [if_neg hnull] at h
      right
      obtain ⟨gpu, hg, h⟩ := Option.bind_eq_some.mp h
      have h2 : (f0, recOfGPU f1 f2 f4 a0 a1 a2 a3 gpu.1 gpu.2.1 gpu.2.2) = (nm, rec) :=
        Option.some.injEq _ _ ▸ h
      refine ⟨hnull, gpu.1, gpu.2.1, gpu.2.2, ?_, (congrArg Prod.snd h2).symm⟩
      rw [← hg]

lemma decodeFields_short {node : List GoStr} (h : node.length < 7) :
    decodeFields node = none := by
  cases hd : decodeFields node with
  | none => rfl
  | some p =>
    obtain ⟨nm, rec⟩ := p
    obtain ⟨f0, f1, f2, f3, f4, f5, f6, c0, c1, c2, c3, crest,
      -, -, -, -, -, -, h6, -⟩ := decodeFields_inv hd
    obtain ⟨hlen, -⟩ := List.getElem?_eq_some_iff.mp h6
    omega

lemma head_isDigit {c : Char} {rest : GoStr} (hd : isDigits (c :: rest) = true) :
    c.isDigit = true := by
  simp [isDigits, List.all_cons] at hd
  exact hd.1

lemma atoiGo_digits {t : GoStr} (hd : isDigits t = true) (hb : digitsToNat t < 2 ^ 63) :
    atoiGo t = (digitsToNat t : Int) := by
  have hplus : t.head? ≠ some '+' := by
    intro hc
    cases t with
    | nil => simp at hc
    | cons c rest =>
      simp only [List.head?_cons, Option.some.injEq] at hc
      subst hc
      exact absurd (head_isDigit hd) (by decide)
  have hminus : t.head? ≠ some '-' := by
    intro hc
    cases t with
    | nil => simp at hc
    | cons c rest =>
      simp only [List.head?_cons, Option.some.injEq] at hc
      subst hc
      exact absurd (head_isDigit hd) (by decide)
  unfold atoiGo
  rw [if_neg hplus, if_neg hminus, if_pos hd]
  unfold intClamp
  have e1 : (2 : Int) ^ 63 = 9223372036854775808 := by norm_num
  have e2 : (2 : Nat) ^ 63 = 9223372036854775808 := by norm_num
  rw [e1]
  rw [e2] at hb
  omega

lemma parseUintGo_digits {t : GoStr} (hd : isDigits t = true)
    (hb : digitsToNat t < 2 ^ 64) : parseUintGo t = digitsToNat t := by
  unfold parseUintGo
  rw [if_pos hd]
  have e : (2 : Nat) ^ 64 = 18446744073709551616 := by norm_num
  rw [e]
  rw [e] at hb
  omega

lemma parseUintGo_notDigits {t : GoStr} (hd : isDigits t = false) :
    parseUintGo t = 0 := by
  simp [parseUintGo, hd]

lemma setIdx_natCast {l : List Nat} {v : Nat} (hv : v < l.length) :
    setIdx l (v : Int) = some (l.set v 1) := by
  unfold setIdx
  rw [if_pos ⟨Int.natCast_nonneg v, by simpa using hv⟩]
  simp

lemma setRangeAux_char : ∀ (k : Nat) (l : List Nat) (s : Nat), s + k ≤ l.length →
    ∃ l2, setRangeAux l (s : Int) k = some l2 ∧ l2.length = l.length ∧
      ∀ i : Nat, l2[i]? = if s ≤ i ∧ i < s + k then some 1 else l[i]?
  | 0, l, s, _ => ⟨l, rfl, rfl, fun i => by
      rw [if_neg (by omega)]⟩
  | k + 1, l, s, h => by
    have hs : s < l.length := by omega
    have hstep : setRangeAux l (s : Int) (k + 1) =
        (setIdx l (s : Int)).bind (fun l2 => setRangeAux l2 ((s : Int) + 1) k) := rfl
    rw [hstep, setIdx_natCast hs]
    have hcast : ((s : Int) + 1) = ((s + 1 : Nat) : Int) := by push_cast; ring
    rw [Option.some_bind, hcast]
    obtain ⟨l2, h1, h2, h3⟩ := setRangeAux_char k (l.set s 1) (s + 1)
      (by rw [List.length_set]; omega)
    refine ⟨l2, h1, by rw [h2, List.length_set], fun i => ?_⟩
    rw [h3 i]
    by_cases hi : s + 1 ≤ i ∧ i < s + 1 + k
    · rw [if_pos hi, if_pos (by omega)]
    · rw [if_neg hi, List.getElem?_set]
      by_cases hsi : s = i
      · subst hsi
        rw [if_pos rfl, if_pos hs, if_pos (by omega)]
      · rw [if_neg hsi, if_neg (by omega)]

lemma setRange_char {l : List Nat} {a b : Nat} (hab : a ≤ b) (hb : b < l.length) :
    ∃ l2, setRange l (a : Int) (b : Int) = some l2 ∧ l2.length = l.length ∧
      ∀ i : Nat, l2[i]? = if a ≤ i ∧ i ≤ b then some 1 else l[i]? := by
  unfold setRange
  have hk : ((b : Int) - a + 1).toNat = b - a + 1 := by omega
  rw [hk]
  obtain ⟨l2, h1, h2, h3⟩ := setRangeAux_char (b - a + 1) l a (by omega)
  refine ⟨l2, h1, h2, fun i => ?_⟩
  have hiff : (a ≤ i ∧ i < a + (b - a + 1)) ↔ (a ≤ i ∧ i ≤ b) := by omega
  rw [h3 i, if_congr hiff rfl rfl]

lemma applyToken_char {bm : List Nat} {n : Nat} {t : GoStr} (hlen : bm.length = n)
    (hwf : WFToken n t) :
    ∃ bm2, applyToken bm t = some bm2 ∧ bm2.length = n ∧
      ∀ i : Nat, bm2[i]? = if NamedIdx t i then some 1 else bm[i]? := by
  unfold applyToken
  unfold WFToken at hwf
  by_cases hdash : t.contains '-' = true
  · rw [if_pos hdash] at hwf ⊢
    obtain ⟨-, hd0, hd1, hle, hlt, h63⟩ := hwf
    have ha0 : atoiGo ((goSplit (fun c => c = '-') t).getD 0 []) =
        ((digitsToNat (rb0 t) : Nat) : Int) := by
      show atoiGo (rb0 t) = ((digitsToNat (rb0 t) : Nat) : Int)
      exact atoiGo_digits hd0 (lt_of_le_of_lt hle h63)
    have ha1 : atoiGo ((goSplit (fun c => c = '-') t).getD 1 []) =
        ((digitsToNat (rb1 t) : Nat) : Int) := by
      show atoiGo (rb1 t) = ((digitsToNat (rb1 t) : Nat) : Int)
      exact atoiGo_digits hd1 h63
    rw [ha0, ha1]
    obtain ⟨bm2, h1, h2, h3⟩ := @setRange_char bm _ _ hle (by omega)
    refine ⟨bm2, h1, by omega, fun i => ?_⟩
    rw [h3 i]
    have hni : NamedIdx t i ↔ (digitsToNat (rb0 t) ≤ i ∧ i ≤ digitsToNat (rb1 t)) := by
      unfold NamedIdx
      rw [if_pos hdash]
    rw [if_congr hni.symm rfl rfl]
  · rw [if_neg hdash] at hwf ⊢
    obtain ⟨hd, hlt, h63⟩ := hwf
    rw [atoiGo_digits hd h63, setIdx_natCast (by omega)]
    refine ⟨bm.set (digitsToNat t) 1, rfl,
      by rw [List.length_set]; exact hlen, fun i => ?_⟩
    rw [List.getElem?_set]
    have hni : NamedIdx t i ↔ i = digitsToNat t := by
      unfold NamedIdx
      rw [if_neg hdash]
    by_cases hv : digitsToNat t = i
    · rw [if_pos hv, if_pos (show digitsToNat t < bm.length by omega),
        if_pos (hni.mpr hv.symm)]
    · rw [if_neg hv, if_neg (fun hc => hv ((hni.mp hc).symm))]

lemma foldlM_applyToken_char : ∀ (ts : List GoStr) (bm : List Nat) (n : Nat),
    bm.length = n → (∀ t ∈ ts, WFToken n t) →
    ∃ bm2, List.foldlM applyToken bm ts = some bm2 ∧ bm2.length = n ∧
      ∀ i : Nat, bm2[i]? = if ∃ t ∈ ts, NamedIdx t i then some 1 else bm[i]?
  | [], bm, n, hlen, _ => ⟨bm, rfl, hlen, fun i => (if_neg (by simp)).symm⟩
  | t :: ts, bm, n, hlen, hwf => by
    rw [List.foldlM_cons]
    obtain ⟨bm1, h1, hlen1, hchar1⟩ := applyToken_char hlen (hwf t (List.mem_cons_self t ts))
    rw [h1]
    obtain ⟨bm2, h2, hlen2, hchar2⟩ := foldlM_applyToken_char ts bm1 n hlen1
      (fun u hu => hwf u (List.mem_cons_of_mem t hu))
    refine ⟨bm2, h2, hlen2, fun i => ?_⟩
    rw [hchar2 i]
    by_cases hts : ∃ u ∈ ts, NamedIdx u i
    · obtain ⟨u, hu, hn⟩ := hts
      rw [if_pos ⟨u, hu, hn⟩, if_pos ⟨u, List.mem_cons_of_mem t hu, hn⟩]
    · rw [if_neg hts, hchar1 i]
      by_cases hh : NamedIdx t i
      · rw [if_pos hh, if_pos ⟨t, List.mem_cons_self t ts, hh⟩]
      · rw [if_neg hh, if_neg ?_]
        intro hc
        obtain ⟨u, hu, hn⟩ := hc
        rcases List.mem_cons.mp hu with rfl | hmem
        · exact hh hn
        · exact hts ⟨u, hmem, hn⟩

lemma buildBitmap_char {n : Nat} {spec : GoStr} (hne : spec ≠ naStr)
    (hwf : ∀ t ∈ goSplit (fun c => c = ',') spec, WFToken n t) :
    ∃ bm, buildBitmap n spec = some bm ∧ bm.length = n ∧
      ∀ i : Nat, i < n → bm[i]? =
        some (if ∃ t ∈ goSplit (fun c => c = ',') spec, NamedIdx t i then 1 else 0) := by
  unfold buildBitmap
  rw [if_neg hne]
  obtain ⟨bm, h1, h2, h3⟩ := foldlM_applyToken_char _ (List.replicate n 0) n (by simp) hwf
  refine ⟨bm, h1, h2, fun i hi => ?_⟩
  rw [h3 i]
  by_cases hx : ∃ t ∈ goSplit (fun c => c = ',') spec, NamedIdx t i
  · rw [if_pos hx, if_pos hx]
  · rw [if_neg hx, if_neg hx, List.getElem?_replicate, if_pos hi]

lemma setIdx_length {l l2 : List Nat} {i : Int} (h : setIdx l i = some l2) :
    l2.length = l.length := by
  unfold setIdx at h
  by_cases hc : 0 ≤ i ∧ i.toNat < l.length
  · rw [if_pos hc] at h
    cases h
    simp
  · rw [if_neg hc] at h
    cases h

lemma setRangeAux_length : ∀ {k : Nat} {l l2 : List Nat} {s : Int},
    setRangeAux l s k = some l2 → l2.length = l.length
  | 0, l, l2, s, h => by
    cases h
    rfl
  | k + 1, l, l2, s, h => by
    have hstep : setRangeAux l s (k + 1) =
        (setIdx l s).bind (fun l3 => setRangeAux l3 (s + 1) k) := rfl
    rw [hstep] at h
    obtain ⟨l3, h1, h2⟩ := Option.bind_eq_some.mp h
    rw [setRangeAux_length h2, setIdx_length h1]

lemma applyToken_length {bm bm2 : List Nat} {t : GoStr}
    (h : applyToken bm t = some bm2) : bm2.length = bm.length := by
  unfold applyToken at h
  by_cases hdash : t.contains '-' = true
  · rw [if_pos hdash] at h
    unfold setRange at h
    exact setRangeAux_length h
  · rw [if_neg hdash] at h
    exact setIdx_length h

lemma foldlM_applyToken_length : ∀ {ts : List GoStr} {bm bm2 : List Nat},
    List.foldlM applyToken bm ts = some bm2 → bm2.length = bm.length
  | [], bm, bm2, h => by
    simp only [List.foldlM_nil] at h
    cases h
    rfl
  | t :: ts, bm, bm2, h => by
    rw [List.foldlM_cons] at h
    obtain ⟨bm1, h1, h2⟩ := Option.bind_eq_some.mp h
    rw [foldlM_applyToken_length h2, applyToken_length h1]

lemma buildBitmap_length {n : Nat} {spec : GoStr} {bm : List Nat}
    (h : buildBitmap n spec = some bm) : bm.length = n := by
  unfold buildBitmap at h
  by_cases hc : spec = naStr
  · rw [if_pos hc] at h
    cases h
    simp
  · rw [if_neg hc] at h
    rw [foldlM_applyToken_length h]
    simp

lemma decodeGPU_inv {gt gaS ty : GoStr} {gan : Nat} {bm : List Nat}
    (h : decodeGPU gt gaS = some (ty, gan, bm)) :
    ∃ totCnt : GoStr, (goSplit (fun c => c = ':') gt)[2]? = some totCnt ∧
      ∃ indexList : GoStr, buildBitmap (parseUintGo totCnt) indexList = some bm := by
  unfold decodeGPU at h
  obtain ⟨g0, h0, h⟩ := Option.bind_eq_some.mp h
  obtain ⟨ty2, hty, h⟩ := Option.bind_eq_some.mp h
  obtain ⟨allocStr, hal, h⟩ := Option.bind_eq_some.mp h
  obtain ⟨totCnt, htc, h⟩ := Option.bind_eq_some.mp h
  obtain ⟨g1, h1, h⟩ := Option.bind_eq_some.mp h
  obtain ⟨indexList, hil, h⟩ := Option.bind_eq_some.mp h
  obtain ⟨bm2, hbm, h⟩ := Option.bind_eq_some.mp h
  have h2 : (ty2, parseUintGo allocStr, bm2) = (ty, gan, bm) :=
    Option.some.injEq _ _ ▸ h
  refine ⟨totCnt, htc, indexList, ?_⟩
  have hbm2 : bm2 = bm := congrArg (fun p => p.2.2) h2
  rw [← hbm2]
  exact hbm

set_option maxRecDepth 1000000

/-- C1: the single well-formed input line
node01 1024 2048 4/2/0/6 mixed gpu:a100:8 gpu:a100:3(IDX:0,2-3)
parses to a map with exactly one record, keyed node01, with cpuAlloc 4,
cpuIdle 2, cpuOther 0, cpuTotal 6, memAlloc 1024, memTotal 2048, status
mixed, hasGPU true, gpuType a100, gpuAlloc 3 and the length-8 bitmap
[1,0,1,1,0,0,0,0]. -/
theorem c1_end_to_end :
    ParseNodeMetrics
        (gs (r"node01 1024 2048 4/2/0/6 mixed gpu:a100:8 gpu:a100:3(IDX:0,2-3)")) =
      some [(gs (r"node01"),
        { cpuAlloc := 4, cpuIdle := 2, cpuOther := 0, cpuTotal := 6,
          memAlloc := 1024, memTotal := 2048, gpuAlloc := 3, hasGPU := true,
          gpuType := gs (r"a100"), gpuIndex := [1, 0, 1, 1, 0, 0, 0, 0],
          nodeStatus := gs (r"mixed") })] := by
  decide

/-- C8: contrary to the claim, the trailing empty line produced by
splitting an input that ends in a newline is NOT discarded: it survives
the sort and the adjacent-duplicate removal, and decoding it reads
field 0 of an empty field list, which is an index-out-of-range panic in
Go (none here), while the same input without the trailing newline
parses fine. -/
theorem c8_trailing_newline_diverges :
    ParseNodeMetrics
        (gs (r"node01 1024 2048 4/2/0/6 mixed (null) (null)") ++ ['\n']) = none ∧
    ParseNodeMetrics (gs (r"node01 1024 2048 4/2/0/6 mixed (null) (null)")) =
      some [(gs (r"node01"),
        { cpuAlloc := 4, cpuIdle := 2, cpuOther := 0, cpuTotal := 6,
          memAlloc := 1024, memTotal := 2048, gpuAlloc := 0, hasGPU := false,
          gpuType := [], gpuIndex := [], nodeStatus := gs (r"mixed") })] := by
  constructor
  · decide
  · decide

/-- C5 counterexample: a line with fewer than 7 whitespace-separated
fields does not degrade to zero values: it aborts the entire parse
(index-out-of-range panic, none here), and the well-formed sibling
line's record is lost rather than produced as in isolation. -/
theorem c5_counterexample :
    parseLines [gs (r"a 1 2 0/0/0/0 idle (null) x"), gs (r"b")] = none ∧
    parseLines [gs (r"a 1 2 0/0/0/0 idle (null) x")] =
      some [(gs (r"a"),
        { cpuAlloc := 0, cpuIdle := 0, cpuOther := 0, cpuTotal := 0,
          memAlloc := 1, memTotal := 2, gpuAlloc := 0, hasGPU := false,
          gpuType := [], gpuIndex := [], nodeStatus := gs (r"idle") })] := by
  constructor
  · decide
  · decide

/-- C6 counterexample: a non-integer GRES total count (gpu:a100:x) is
decoded as zero, so the bitmap is empty, and the index named by the
allocated descriptor's index-spec then makes the parser panic
(none here) instead of assigning zero and leaving other fields
unaffected. -/
theorem c6_counterexample :
    decodeFields [gs (r"n"), gs (r"1"), gs (r"2"), gs (r"0/0/0/0"), gs (r"idle"),
      gs (r"gpu:a100:x"), gs (r"gpu:a100:1(IDX:0)")] = none := by
  decide

/-- C2: for every successfully decoded GPU descriptor pair the bitmap
length equals the count parsed from the total-GRES descriptor's third
colon segment; the N/A sentinel leaves the bitmap all-zero; for any
other index-spec whose comma-separated tokens are well formed (single
integer, or dash range with start at most end) and name only indices
below the total count, exactly the named indices are 1 and every other
entry is 0; in particular index-spec 0,2-6 with total count 8 yields
[1,0,1,1,1,1,1,0]. -/
theorem c2_gpu_bitmap (n : Nat) (spec : GoStr) :
    (∀ gt gaS ty : GoStr, ∀ gan : Nat, ∀ bm : List Nat,
      decodeGPU gt gaS = some (ty, gan, bm) →
      ∃ totCnt : GoStr, (goSplit (fun c => c = ':') gt)[2]? = some totCnt ∧
        bm.length = parseUintGo totCnt) ∧
    (spec = naStr → buildBitmap n spec = some (List.replicate n 0)) ∧
    (spec ≠ naStr → (∀ t ∈ goSplit (fun c => c = ',') spec, WFToken n t) →
      ∃ bm, buildBitmap n spec = some bm ∧ bm.length = n ∧
        ∀ i : Nat, i < n → bm[i]? =
          some (if ∃ t ∈ goSplit (fun c => c = ',') spec, NamedIdx t i then 1 else 0)) ∧
    buildBitmap 8 (gs (r"0,2-6")) = some [1, 0, 1, 1, 1, 1, 1, 0] := by
  refine ⟨?_, ?_, ?_, by decide⟩
  · intro gt gaS ty gan bm h
    obtain ⟨totCnt, htc, indexList, hbb⟩ := decodeGPU_inv h
    exact ⟨totCnt, htc, buildBitmap_length hbb⟩
  · intro h
    subst h
    unfold buildBitmap
    rw [if_pos rfl]
  · intro hne hwf
    exact buildBitmap_char hne hwf

/-- Witness for C2: the total-GRES descriptor gpu:a100:8 with allocated
descriptor gpu:a100:3(IDX:0,2-3) really decodes, its bitmap length
matches the parsed total count, the N/A branch applies at count 3, and
the token branch applies to 0,2-6 at count 8. -/
theorem c2_gpu_bitmap_witness :
    (∃ totCnt : GoStr,
      (goSplit (fun c => c = ':') (gs (r"gpu:a100:8")))[2]? = some totCnt ∧
        ([1, 0, 1, 1, 0, 0, 0, 0] : List Nat).length = parseUintGo totCnt) ∧
    buildBitmap 3 naStr = some (List.replicate 3 0) ∧
    (∃ bm, buildBitmap 8 (gs (r"0,2-6")) = some bm ∧ bm.length = 8 ∧
      ∀ i : Nat, i < 8 → bm[i]? =
        some (if ∃ t ∈ goSplit (fun c => c = ',') (gs (r"0,2-6")), NamedIdx t i
          then 1 else 0)) := by
  refine ⟨?_, ?_, ?_⟩
  · exact (c2_gpu_bitmap 8 naStr).1 (gs (r"gpu:a100:8"))
      (gs (r"gpu:a100:3(IDX:0,2-3)")) (gs (r"a100")) 3
      [1, 0, 1, 1, 0, 0, 0, 0] (by decide)
  · exact (c2_gpu_bitmap 3 naStr).2.1 rfl
  · exact (c2_gpu_bitmap 8 (gs (r"0,2-6"))).2.2.1 (by decide) (by decide)

/-- C9: when the index-spec is the sentinel, or every token is well
formed and names only indices below the total count, the bitmap
construction never reaches the out-of-range branch: it completes with
a bitmap of exactly the total length, neither truncated nor wrapped. -/
theorem c9_bounds_no_panic (n : Nat) (spec : GoStr)
    (hwf : spec ≠ naStr → ∀ t ∈ goSplit (fun c => c = ',') spec, WFToken n t) :
    ∃ bm, buildBitmap n spec = some bm ∧ bm.length = n := by
  by_cases hne : spec = naStr
  · subst hne
    refine ⟨List.replicate n 0, ?_, by simp⟩
    unfold buildBitmap
    rw [if_pos rfl]
  · obtain ⟨bm, h1, h2, -⟩ := buildBitmap_char hne (hwf hne)
    exact ⟨bm, h1, h2⟩

/-- Witness for C9 at index-spec 0,2-6 with total count 8. -/
theorem c9_bounds_no_panic_witness :
    ∃ bm, buildBitmap 8 (gs (r"0,2-6")) = some bm ∧ bm.length = 8 :=
  c9_bounds_no_panic 8 (gs (r"0,2-6")) (fun _ => by decide)

/-- C10: the parser's result depends only on the multiset of input
lines: two raw inputs whose newline-splits are permutations of each
other parse identically, because the lines are sorted before
deduplication and decoding. -/
theorem c10_line_order_independent (s t : GoStr)
    (h : (goSplit (fun c => c = '\n') s).Perm (goSplit (fun c => c = '\n') t)) :
    ParseNodeMetrics s = ParseNodeMetrics t := by
  unfold ParseNodeMetrics parseLines
  rw [sortLines_perm_eq h]

/-- Witness for C10: swapping two concrete node lines leaves the
parse result unchanged. -/
theorem c10_line_order_independent_witness :
    ParseNodeMetrics (gs (r"bb 3 4 0/0/0/0 idle (null) x") ++ '\n' ::
      gs (r"aa 1 2 0/0/0/0 idle (null) x")) =
    ParseNodeMetrics (gs (r"aa 1 2 0/0/0/0 idle (null) x") ++ '\n' ::
      gs (r"bb 3 4 0/0/0/0 idle (null) x")) :=
  c10_line_order_independent _ _ (by decide)

/-- C3: for any line whose sixth field is the literal sentinel (null),
whatever the seventh field holds, a successful decode leaves hasGPU
false, the GPU type empty, the allocated GPU count zero and the bitmap
empty, and the collector emits no GPU observation for that node. -/
theorem c3_null_total_gres (node : List GoStr) (nm : GoStr) (rec : NodeMetrics)
    (h5 : node[5]? = some nullStr) (h : decodeFields node = some (nm, rec)) :
    rec.hasGPU = false ∧ rec.gpuType = [] ∧ rec.gpuAlloc = 0 ∧
      rec.gpuIndex = [] ∧ nodeGPUObs nm rec = [] := by
  obtain ⟨f0, f1, f2, f3, f4, f5, f6, c0, c1, c2, c3, crest,
    -, -, -, -, -, h5b, -, -, -, hcase⟩ := decodeFields_inv h
  rw [h5] at h5b
  have hf5 : nullStr = f5 := Option.some.inj h5b
  rcases hcase with ⟨-, hrec⟩ | ⟨hne, -⟩
  · subst hrec
    exact ⟨rfl, rfl, rfl, rfl, by simp [nodeGPUObs, recOfNoGPU]⟩
  · exact absurd hf5.symm hne

/-- Witness for C3: a concrete line with total-GRES descriptor (null)
and a junk allocated-GRES field. -/
theorem c3_null_total_gres_witness :
    ({ cpuAlloc := 0, cpuIdle := 0, cpuOther := 0, cpuTotal := 0,
       memAlloc := 1, memTotal := 2, gpuAlloc := 0, hasGPU := false,
       gpuType := [], gpuIndex := [],
       nodeStatus := gs (r"idle") } : NodeMetrics).hasGPU = false ∧
    ({ cpuAlloc := 0, cpuIdle := 0, cpuOther := 0, cpuTotal := 0,
       memAlloc := 1, memTotal := 2, gpuAlloc := 0, hasGPU := false,
       gpuType := [], gpuIndex := [],
       nodeStatus := gs (r"idle") } : NodeMetrics).gpuType = [] ∧
    ({ cpuAlloc := 0, cpuIdle := 0, cpuOther := 0, cpuTotal := 0,
       memAlloc := 1, memTotal := 2, gpuAlloc := 0, hasGPU := false,
       gpuType := [], gpuIndex := [],
       nodeStatus := gs (r"idle") } : NodeMetrics).gpuAlloc = 0 ∧
    ({ cpuAlloc := 0, cpuIdle := 0, cpuOther := 0, cpuTotal := 0,
       memAlloc := 1, memTotal := 2, gpuAlloc := 0, hasGPU := false,
       gpuType := [], gpuIndex := [],
       nodeStatus := gs (r"idle") } : NodeMetrics).gpuIndex = [] ∧
    nodeGPUObs (gs (r"n"))
      { cpuAlloc := 0, cpuIdle := 0, cpuOther := 0, cpuTotal := 0,
        memAlloc := 1, memTotal := 2, gpuAlloc := 0, hasGPU := false,
        gpuType := [], gpuIndex := [],
        nodeStatus := gs (r"idle") } = [] :=
  c3_null_total_gres
    [gs (r"n"), gs (r"1"), gs (r"2"), gs (r"0/0/0/0"), gs (r"idle"),
      gs (r"(null)"), gs (r"gpu:bogus:9(IDX:0-8)")]
    (gs (r"n")) _ (by decide) (by decide)

/-- C4: adding another copy of a line already present leaves the parse
unchanged (idempotent deduplication); and in every successful parse
the map has pairwise-distinct node-name keys (exactly one entry per
name) and each record is the decode of one single input line, never a
merge of two lines. -/
theorem c4_duplicates_collapse (ls : List GoStr) (L : GoStr) (hL : L ∈ ls) :
    parseLines (L :: ls) = parseLines ls ∧
    ∀ m : NodeMap, parseLines ls = some m →
      (m.map Prod.fst).Nodup ∧ ∀ q ∈ m, ∃ line ∈ ls, decodeLine line = some q :=
  ⟨parseLines_cons_mem hL, fun _ hm => parseLines_some_inv hm⟩

/-- Witness for C4: a duplicated line plus a second line with the same
node name but different fields. -/
theorem c4_duplicates_collapse_witness :
    parseLines [gs (r"a 1 2 0/0/0/0 idle (null) x"),
        gs (r"a 1 2 0/0/0/0 idle (null) x"),
        gs (r"a 3 4 0/0/0/0 down (null) x")] =
      parseLines [gs (r"a 1 2 0/0/0/0 idle (null) x"),
        gs (r"a 3 4 0/0/0/0 down (null) x")] ∧
    ∀ m : NodeMap,
      parseLines [gs (r"a 1 2 0/0/0/0 idle (null) x"),
        gs (r"a 3 4 0/0/0/0 down (null) x")] = some m →
      (m.map Prod.fst).Nodup ∧
        ∀ q ∈ m, ∃ line ∈ [gs (r"a 1 2 0/0/0/0 idle (null) x"),
          gs (r"a 3 4 0/0/0/0 down (null) x")], decodeLine line = some q :=
  c4_duplicates_collapse
    [gs (r"a 1 2 0/0/0/0 idle (null) x"), gs (r"a 3 4 0/0/0/0 down (null) x")]
    (gs (r"a 1 2 0/0/0/0 idle (null) x")) (by decide)

/-- C5 (amended): a line with fewer than 7 whitespace-separated fields
aborts the whole parse with an index-out-of-range panic (none here),
losing every sibling line's record, and a GPU index outside the bitmap
does the same; only numeric decode failures degrade to zero. -/
theorem c5_amended_malformed_aborts (node : List GoStr) (ls : List GoStr)
    (line : GoStr) (hshort : node.length < 7) (hmem : line ∈ ls)
    (hnone : decodeLine line = none) :
    decodeFields node = none ∧ parseLines ls = none ∧
      decodeFields [gs (r"n"), gs (r"1"), gs (r"2"), gs (r"0/0/0/0"), gs (r"idle"),
        gs (r"gpu:a100:2"), gs (r"gpu:a100:1(IDX:5)")] = none :=
  ⟨decodeFields_short hshort, parseLines_none hmem hnone, by decide⟩

/-- Witness for C5 (amended) at a one-field line. -/
theorem c5_amended_malformed_aborts_witness :
    decodeFields [gs (r"x")] = none ∧ parseLines [gs (r"b")] = none ∧
      decodeFields [gs (r"n"), gs (r"1"), gs (r"2"), gs (r"0/0/0/0"), gs (r"idle"),
        gs (r"gpu:a100:2"), gs (r"gpu:a100:1(IDX:5)")] = none :=
  c5_amended_malformed_aborts [gs (r"x")] [gs (r"b")] (gs (r"b"))
    (by decide) (by decide) (by decide)

/-- C6 (amended): every numeric field of a successfully decoded line
is a function of its own sub-field alone (so non-integer text there
decodes to zero, as parseUintGo returns 0 on any non-digit string,
leaving every other field unaffected); except that a non-integer GRES
total count shrinks the bitmap to length zero, so an index-spec naming
any index aborts the parse instead, and a non-integer single index
token decodes to index 0 and sets bitmap entry 0. -/
theorem c6_amended_zero_on_bad_numeric :
    (∀ s : GoStr, isDigits s = false → parseUintGo s = 0) ∧
    (∀ f0 f1 f2 f3 f4 f5 f6 nm : GoStr, ∀ rec : NodeMetrics,
      decodeFields [f0, f1, f2, f3, f4, f5, f6] = some (nm, rec) →
      nm = f0 ∧ rec.memAlloc = parseUintGo f1 ∧ rec.memTotal = parseUintGo f2 ∧
        rec.nodeStatus = f4 ∧
        ∃ c0 c1 c2 c3 crest,
          goSplit (fun c => c = '/') f3 = c0 :: c1 :: c2 :: c3 :: crest ∧
          rec.cpuAlloc = parseUintGo c0 ∧ rec.cpuIdle = parseUintGo c1 ∧
          rec.cpuOther = parseUintGo c2 ∧ rec.cpuTotal = parseUintGo c3) ∧
    applyToken [0, 0] (gs (r"xy")) = some [1, 0] := by
  refine ⟨fun s hs => parseUintGo_notDigits hs, ?_, by decide⟩
  intro f0 f1 f2 f3 f4 f5 f6 nm rec h
  obtain ⟨g0, g1, g2, g3, g4, g5, g6, c0, c1, c2, c3, crest,
    h0, h1, h2, h3, h4, h5, h6, hsplit, hnm, hcase⟩ := decodeFields_inv h
  simp only [List.getElem?_cons_zero, List.getElem?_cons_succ,
    Option.some.injEq] at h0 h1 h2 h3 h4 h5 h6
  subst h0
  subst h1
  subst h2
  subst h3
  subst h4
  subst h5
  subst h6
  rcases hcase with ⟨-, hrec⟩ | ⟨-, ty, ga, bm, -, hrec⟩ <;> subst hrec <;>
    exact ⟨hnm, rfl, rfl, rfl, c0, c1, c2, c3, crest, hsplit, rfl, rfl, rfl, rfl⟩

/-- Witness for C6 (amended): a line whose memory field is the
non-integer text abc decodes with memAlloc zero and every other field
intact. -/
theorem c6_amended_zero_on_bad_numeric_witness :
    parseUintGo (gs (r"abc")) = 0 ∧
    ((gs (r"n") : GoStr) = gs (r"n") ∧
      ({ cpuAlloc := 4, cpuIdle := 2, cpuOther := 0, cpuTotal := 6,
         memAlloc := 0, memTotal := 2048, gpuAlloc := 0, hasGPU := false,
         gpuType := [], gpuIndex := [],
         nodeStatus := gs (r"mixed") } : NodeMetrics).memAlloc =
        parseUintGo (gs (r"abc")) ∧
      ({ cpuAlloc := 4, cpuIdle := 2, cpuOther := 0, cpuTotal := 6,
         memAlloc := 0, memTotal := 2048, gpuAlloc := 0, hasGPU := false,
         gpuType := [], gpuIndex := [],
         nodeStatus := gs (r"mixed") } : NodeMetrics).memTotal =
        parseUintGo (gs (r"2048")) ∧
      ({ cpuAlloc := 4, cpuIdle := 2, cpuOther := 0, cpuTotal := 6,
         memAlloc := 0, memTotal := 2048, gpuAlloc := 0, hasGPU := false,
         gpuType := [], gpuIndex := [],
         nodeStatus := gs (r"mixed") } : NodeMetrics).nodeStatus = gs (r"mixed") ∧
      ∃ c0 c1 c2 c3 crest,
        goSplit (fun c => c = '/') (gs (r"4/2/0/6")) = c0 :: c1 :: c2 :: c3 :: crest ∧
        ({ cpuAlloc := 4, cpuIdle := 2, cpuOther := 0, cpuTotal := 6,
           memAlloc := 0, memTotal := 2048, gpuAlloc := 0, hasGPU := false,
           gpuType := [], gpuIndex := [],
           nodeStatus := gs (r"mixed") } : NodeMetrics).cpuAlloc = parseUintGo c0 ∧
        ({ cpuAlloc := 4, cpuIdle := 2, cpuOther := 0, cpuTotal := 6,
           memAlloc := 0, memTotal := 2048, gpuAlloc := 0, hasGPU := false,
           gpuType := [], gpuIndex := [],
           nodeStatus := gs (r"mixed") } : NodeMetrics).cpuIdle = parseUintGo c1 ∧
        ({ cpuAlloc := 4, cpuIdle := 2, cpuOther := 0, cpuTotal := 6,
           memAlloc := 0, memTotal := 2048, gpuAlloc := 0, hasGPU := false,
           gpuType := [], gpuIndex := [],
           nodeStatus := gs (r"mixed") } : NodeMetrics).cpuOther = parseUintGo c2 ∧
        ({ cpuAlloc := 4, cpuIdle := 2, cpuOther := 0, cpuTotal := 6,
           memAlloc := 0, memTotal := 2048, gpuAlloc := 0, hasGPU := false,
           gpuType := [], gpuIndex := [],
           nodeStatus := gs (r"mixed") } : NodeMetrics).cpuTotal = parseUintGo c3) :=
  ⟨c6_amended_zero_on_bad_numeric.1 (gs (r"abc")) (by decide),
    c6_amended_zero_on_bad_numeric.2.1 (gs (r"n")) (gs (r"abc")) (gs (r"2048"))
      (gs (r"4/2/0/6")) (gs (r"mixed")) (gs (r"(null)")) (gs (r"junk"))
      (gs (r"n")) _ (by decide)⟩

/-- C7: for every successfully decoded line whose fourth whitespace
field splits on the slash into exactly four digit strings, the
record's cpuAlloc, cpuIdle, cpuOther and cpuTotal equal those four
integers in that fixed source order. -/
theorem c7_cpu_field_order (node : List GoStr) (nm : GoStr) (rec : NodeMetrics)
    (f3 c0 c1 c2 c3 : GoStr)
    (h3 : node[3]? = some f3)
    (hsplit : goSplit (fun c => c = '/') f3 = [c0, c1, c2, c3])
    (hd0 : isDigits c0 = true) (hd1 : isDigits c1 = true)
    (hd2 : isDigits c2 = true) (hd3 : isDigits c3 = true)
    (hb0 : digitsToNat c0 < 2 ^ 64) (hb1 : digitsToNat c1 < 2 ^ 64)
    (hb2 : digitsToNat c2 < 2 ^ 64) (hb3 : digitsToNat c3 < 2 ^ 64)
    (h : decodeFields node = some (nm, rec)) :
    rec.cpuAlloc = digitsToNat c0 ∧ rec.cpuIdle = digitsToNat c1 ∧
      rec.cpuOther = digitsToNat c2 ∧ rec.cpuTotal = digitsToNat c3 := by
  obtain ⟨f0, f1, f2, f3b, f4, f5, f6, a0, a1, a2, a3, crest,
    -, -, -, h3b, -, -, -, hsplitb, -, hcase⟩ := decodeFields_inv h
  rw [h3] at h3b
  have hf3 : f3 = f3b := Option.some.inj h3b
  rw [← hf3, hsplit] at hsplitb
  injection hsplitb with e0 hr1
  injection hr1 with e1 hr2
  injection hr2 with e2 hr3
  injection hr3 with e3 hr4
  subst e0
  subst e1
  subst e2
  subst e3
  rcases hcase with ⟨-, hrec⟩ | ⟨-, ty, ga, bm, -, hrec⟩ <;> subst hrec <;>
    exact ⟨parseUintGo_digits hd0 hb0, parseUintGo_digits hd1 hb1,
      parseUintGo_digits hd2 hb2, parseUintGo_digits hd3 hb3⟩

/-- Witness for C7 at the concrete CPU field 4/2/0/6. -/
theorem c7_cpu_field_order_witness :
    ({ cpuAlloc := 4, cpuIdle := 2, cpuOther := 0, cpuTotal := 6,
       memAlloc := 1024, memTotal := 2048, gpuAlloc := 0, hasGPU := false,
       gpuType := [], gpuIndex := [],
       nodeStatus := gs (r"mixed") } : NodeMetrics).cpuAlloc =
        digitsToNat (gs (r"4")) ∧
    ({ cpuAlloc := 4, cpuIdle := 2, cpuOther := 0, cpuTotal := 6,
       memAlloc := 1024, memTotal := 2048, gpuAlloc := 0, hasGPU := false,
       gpuType := [], gpuIndex := [],
       nodeStatus := gs (r"mixed") } : NodeMetrics).cpuIdle =
        digitsToNat (gs (r"2")) ∧
    ({ cpuAlloc := 4, cpuIdle := 2, cpuOther := 0, cpuTotal := 6,
       memAlloc := 1024, memTotal := 2048, gpuAlloc := 0, hasGPU := false,
       gpuType := [], gpuIndex := [],
       nodeStatus := gs (r"mixed") } : NodeMetrics).cpuOther =
        digitsToNat (gs (r"0")) ∧
    ({ cpuAlloc := 4, cpuIdle := 2, cpuOther := 0, cpuTotal := 6,
       memAlloc := 1024, memTotal := 2048, gpuAlloc := 0, hasGPU := false,
       gpuType := [], gpuIndex := [],
       nodeStatus := gs (r"mixed") } : NodeMetrics).cpuTotal =
        digitsToNat (gs (r"6")) :=
  c7_cpu_field_order
    [gs (r"node01"), gs (r"1024"), gs (r"2048"), gs (r"4/2/0/6"), gs (r"mixed"),
      gs (r"(null)"), gs (r"x")]
    (gs (r"node01")) _ (gs (r"4/2/0/6")) (gs (r"4")) (gs (r"2")) (gs (r"0"))
    (gs (r"6")) (by decide) (by decide) (by decide) (by decide) (by decide)
    (by decide) (by decide) (by decide) (by decide) (by decide) (by decide)
